import Mathlib

/-!
Verification of the process-orchestration core of the Ollama model manager
(`src/Ollama_Model_Manager_Advanced.py`, class `OllamaCLI`).

Text is modelled as `List Char` (a Python `str`); each subprocess interaction
is modelled by passing its observable result (captured output, exit code, or a
raised exception's text) as an explicit argument, so every method of the class
becomes a pure function of those inputs.
-/

namespace OllamaAdmin

/-- ASCII whitespace, as relevant to `str.split()` / `str.strip()` on the
ASCII text the tool processes. -/
def isSpace (c : Char) : Bool :=
  c = ' ' || c = '\t' || c = '\n' || c = '\r' || c = '\x0b' || c = '\x0c'

/-- Accumulator-based splitter on whitespace runs; `acc` holds the current
word reversed.  Models Python `str.split()` (no separator argument): splits on
runs of whitespace and never yields empty tokens. -/
def splitWSAux : List Char → List Char → List (List Char)
  | [], acc => if acc = [] then [] else [acc.reverse]
  | c :: cs, acc =>
    if isSpace c then
      if acc = [] then splitWSAux cs [] else acc.reverse :: splitWSAux cs []
    else splitWSAux cs (c :: acc)

/-- Python `line.split()`. -/
def splitWS (cs : List Char) : List (List Char) := splitWSAux cs []

/-- Python `" ".join(ws)`. -/
def joinSpace : List (List Char) → List Char
  | [] => []
  | [w] => w
  | w :: ws => w ++ ' ' :: joinSpace ws

/-- Python `"".join(ws)`. -/
def joinAll (ws : List (List Char)) : List Char := ws.foldr (· ++ ·) []

/-- Python `s.strip()`: drop leading and trailing whitespace. -/
def pyStrip (l : List Char) : List Char :=
  ((l.dropWhile isSpace).reverse.dropWhile isSpace).reverse

/-- `true` iff the string neither starts nor ends with whitespace. -/
def noEdgeSpace (l : List Char) : Bool :=
  (match l.head? with | none => true | some c => !isSpace c) &&
  (match l.getLast? with | none => true | some c => !isSpace c)

/-- Python `line.strip()` is falsy, i.e. the line is all whitespace. -/
def isBlank (l : List Char) : Bool := l.all isSpace

/-- Python `line.rstrip("\r\n")`: drop trailing carriage returns/newlines. -/
def rstripCRLF (l : List Char) : List Char :=
  (l.reverse.dropWhile (fun c => c = '\r' || c = '\n')).reverse

/-- The dataclass `OllamaModelInfo` of the source. -/
structure OllamaModelInfo where
  name : List Char
  size : List Char
  modified : List Char
  id : List Char := []
  family : List Char := []
  quant : List Char := []
deriving DecidableEq, Repr

/-- `name.split(":")[0] if ":" in name else name`: the substring of `name`
before the first colon, or all of `name` when it has no colon. -/
def familyOf (name : List Char) : List Char :=
  if name.contains ':' then name.takeWhile (fun c => c ≠ ':') else name

/-- `re.search(r"q\d[^-]*", variant, flags=re.IGNORECASE)`: leftmost
occurrence of `q` or `Q` followed by a digit, extended greedily over non-`-`
characters; `none` when no such occurrence exists.  (`\d` is modelled as the
ASCII digits, the only digits the tool's model names use.) -/
def quantSearch : List Char → Option (List Char)
  | [] => none
  | [_] => none
  | c :: d :: rest =>
    if (c = 'q' || c = 'Q') && d.isDigit then
      some (c :: d :: rest.takeWhile (fun x => x ≠ '-'))
    else quantSearch (d :: rest)

/-- The `quant` derivation of `list_models`: empty unless `name` has a colon,
in which case the quantization pattern is searched in the part after the
first colon. -/
def quantOf (name : List Char) : List Char :=
  if name.contains ':' then
    match quantSearch ((name.dropWhile (fun c => c ≠ ':')).tail) with
    | some q => q
    | none => []
  else []

/-- One iteration of the fallback text-parsing loop of `list_models`
(lines 172-186): split the line on whitespace, skip it when it has fewer
than four tokens, otherwise take the first token as `name`, the second as
`size`, and the space-join of the rest as `modified`. -/
def parseFallbackLine (line : List Char) : Option OllamaModelInfo :=
  match splitWS line with
  | p0 :: p1 :: rest =>
    if rest.length < 2 then none
    else some { name := p0, size := p1, modified := joinSpace rest,
                id := [], family := familyOf p0, quant := quantOf p0 }
  | _ => none

/-- The fallback text path of `list_models` (lines 169-187): keep the
non-blank lines of stdout, return `[]` when at most a header remains,
otherwise parse every data line after the header, skipping malformed ones. -/
def parseFallbackText (stdoutLines : List (List Char)) : List OllamaModelInfo :=
  match stdoutLines.filter (fun ln => !isBlank ln) with
  | [] => []
  | [_] => []
  | _ :: rest => rest.filterMap parseFallbackLine

/-- One decoded entry of the structured (`list --format json`) payload:
the fields `list_models` reads off each JSON object via `item.get`. -/
structure JsonItem where
  name : List Char
  size : List Char
  modified : List Char
  digest : List Char
  id : List Char
deriving DecidableEq, Repr

/-- `item.get("digest", "") or item.get("id", "")`: `digest` when non-empty,
else `id`. -/
def itemId (it : JsonItem) : List Char := if it.digest = [] then it.id else it.digest

/-- The record built for one structured entry (lines 147-158). -/
def recordOfItem (it : JsonItem) : OllamaModelInfo :=
  { name := it.name, size := it.size, modified := it.modified,
    id := itemId it, family := familyOf it.name, quant := quantOf it.name }

/-- Observable result of the structured listing attempt (lines 137-161):
the subprocess ran and its stripped stdout decoded to a list of items; the
subprocess ran but its stripped stdout was empty (the `if text:` guard fails
and control falls through); or some step raised (non-zero exit via
`check=True`, timeout, or `json.loads` failure), caught by the bare
`except Exception: pass`. -/
inductive ListAttempt
  | jsonOk (items : List JsonItem)
  | jsonEmpty
  | jsonFail
deriving DecidableEq, Repr

/-- Observable result of the fallback `list` subprocess (lines 163-190):
its stdout split into lines, or an exception (caught, returning the models
accumulated so far, which is `[]` on this path). -/
inductive FallbackAttempt
  | ok (stdoutLines : List (List Char))
  | fail
deriving DecidableEq, Repr

/-- Python truthiness of `self.binary_path : Optional[str]`. -/
def pathTruthy : Option (List Char) → Bool
  | none => false
  | some p => p ≠ []

/-- `OllamaCLI.list_models` (lines 132-190) as a function of the binary path
and the observable results of its two subprocess attempts. -/
def list_models (binary : Option (List Char)) (ja : ListAttempt)
    (fb : FallbackAttempt) : List OllamaModelInfo :=
  if pathTruthy binary then
    match ja with
    | .jsonOk items => items.map recordOfItem
    | .jsonEmpty | .jsonFail =>
      match fb with
      | .ok out => parseFallbackText out
      | .fail => []
  else []

/-- The value of `re.search(r"(\d{1,3})%\s*$", line)`'s first group: the line,
after its trailing whitespace, must end in `%` immediately preceded by at
least one digit; the group is the last one-to-three digits of the digit run
before that `%` (matching is leftmost, so with four or more digits the match
starts three digits before `%`).  `none` when the pattern does not match. -/
def extractPercentToken (line : List Char) : Option (List Char) :=
  match (line.reverse.dropWhile isSpace) with
  | [] => none
  | c :: rest =>
    if c = '%' then
      if (rest.takeWhile Char.isDigit).take 3 = [] then none
      else some ((rest.takeWhile Char.isDigit).take 3).reverse
    else none

/-- Python `int` on a non-empty string of ASCII digits. -/
def digitsToNat (ds : List Char) : Nat :=
  ds.foldl (fun n c => n * 10 + (c.toNat - '0'.toNat)) 0

/-- The per-line update of `last_percent` in `pull_model` (lines 244-249):
when the percent pattern matches, `last_percent = max(last_percent,
min(100, int(m.group(1))))`; otherwise `last_percent` is unchanged. -/
def observeLine (lastPercent : Nat) (line : List Char) : Nat :=
  match extractPercentToken line with
  | some ds => max lastPercent (min 100 (digitsToNat ds))
  | none => lastPercent

/-- The streaming loop of `pull_model` (lines 241-250) with `on_progress`
set: each raw chunk is `rstrip`ped of `"\r\n"`, `last_percent` is updated
from it, and `on_progress(last_percent, line)` fires for every line.  The
result lists the `(percent, line)` arguments of the callback calls in
order. -/
def pullEventsAux : Nat → List (List Char) → List (Nat × List Char)
  | _, [] => []
  | lp, ln :: lns =>
    (observeLine lp (rstripCRLF ln), rstripCRLF ln) ::
      pullEventsAux (observeLine lp (rstripCRLF ln)) lns

/-- The callback events of one `pull_model` invocation: the loop above
started from `last_percent = 0` (line 239). -/
def pullEvents (lines : List (List Char)) : List (Nat × List Char) :=
  pullEventsAux 0 lines

/-- `OllamaCLI.pull_model` (lines 231-256) as a function of the subprocess's
output chunks and exit code, on the path where the subprocess spawns.
Returns the `(succeeded, message)` outcome and the progress-callback events.
(The surrounding `except` clause returns `(False, str(e))` and is outside
this happy path.)  The failure message is `f"Pull failed (code {code})"`. -/
def pull_model (lines : List (List Char)) (code : Int) :
    (Bool × List Char) × List (Nat × List Char) :=
  (if code = 0 then (true, "Pull complete".data)
   else (false, "Pull failed (code ".data ++ (toString code).data ++ [')']),
   pullEvents lines)

/-- Observable result of one `subprocess.run` call: the process ran to
completion with an exit code, stdout and stderr, or an exception was raised
(spawn failure, timeout), carrying `str(e)`. -/
inductive RunResult
  | ok (exitCode : Int) (stdout stderr : List Char)
  | exc (msg : List Char)
deriving DecidableEq, Repr

/-- `OllamaCLI.remove_model` (lines 192-203): on exit code 0 the stripped
stdout (or the literal `"Removed"` when stdout is empty); on other exit
codes the stripped stderr (or `"Failed to remove"`); on an exception its
text. -/
def remove_model (r : RunResult) : Bool × List Char :=
  match r with
  | .ok code out err =>
    if code = 0 then (true, pyStrip (if out = [] then "Removed".data else out))
    else (false, pyStrip (if err = [] then "Failed to remove".data else err))
  | .exc m => (false, m)

/-- `OllamaCLI.stop_model` (lines 305-316): same shape as `remove_model`
with the literals `"Stopped"` and `"Failed to stop"`. -/
def stop_model (r : RunResult) : Bool × List Char :=
  match r with
  | .ok code out err =>
    if code = 0 then (true, pyStrip (if out = [] then "Stopped".data else out))
    else (false, pyStrip (if err = [] then "Failed to stop".data else err))
  | .exc m => (false, m)

/-- `OllamaCLI.show_modelfile` (lines 205-216): on exit code 0 the RAW
stdout (the source notes it "may be empty string"); on other exit codes the
raw stderr; on an exception its text.  No stripping is applied. -/
def show_modelfile (r : RunResult) : Bool × Option (List Char) :=
  match r with
  | .ok code out err => if code = 0 then (true, some out) else (false, some err)
  | .exc m => (false, some m)

/-- Models `str(e)` for the `TypeError` Python's `subprocess` raises when an
element of the argument vector is `None`. -/
def noneArgvErrorMsg : List Char :=
  "expected str, bytes or os.PathLike object, not NoneType".data

/-- The `subprocess.run([self.binary_path, "show", name, "--modelfile"], ...)`
call of `show_modelfile`: when `binary_path` is `None` the call raises before
any process starts; otherwise it yields the process's result. -/
def subprocessRunShow (binary : Option (List Char)) (r : RunResult) : RunResult :=
  match binary with
  | none => .exc noneArgvErrorMsg
  | some _ => r

/-- One `show_modelfile` invocation together with whether the
`subprocess.run` call was reached. -/
structure ShowInvocation where
  attemptedSpawn : Bool
  outcome : Bool × Option (List Char)
deriving DecidableEq, Repr

/-- `OllamaCLI.show_modelfile` including its (absent) binary-path guard: the
source calls `subprocess.run` unconditionally — there is no
`if not self.binary_path` check in this method — so the spawn is attempted
even when the binary is unresolved, and the raised error is caught by the
`except` clause and converted to a failed outcome. -/
def show_modelfile_full (binary : Option (List Char)) (r : RunResult) :
    ShowInvocation :=
  { attemptedSpawn := true,
    outcome := show_modelfile (subprocessRunShow binary r) }

/-- `OllamaCLI.run_model_once` (lines 286-303) on the path where the
subprocess spawns: every raw output chunk is appended to `captured` and
passed to `on_stream`; after exit the outcome is `(code == 0,
"".join(captured))`.  Returns the outcome and the list of chunks delivered
to `on_stream`, in order. -/
def run_model_once (lines : List (List Char)) (code : Int) :
    (Bool × List Char) × List (List Char) :=
  ((code == 0, joinAll lines), lines)

/-- `OllamaCLI.prune` (lines 318-333) on the path where the subprocess
spawns: the output chunks are collected and joined raw into the message. -/
def prune (lines : List (List Char)) (code : Int) : Bool × List Char :=
  (code == 0, joinAll lines)

/-- How one `create_model_from_modelfile` invocation ends after the
temporary Modelfile has been written: the streaming loop and `wait`
completed with an exit code, or the inner block raised (spawn failure, a
callback exception, an I/O error while streaming). -/
inductive CreateRun
  | completed (exitCode : Int)
  | streamExc (msg : List Char)
deriving DecidableEq, Repr

/-- `OllamaCLI.create_model_from_modelfile` (lines 258-284), tracking the
filesystem as the list of existing paths.  `tempfile.NamedTemporaryFile`
with `delete=False` creates the file at `mfPath`; the body runs inside
`try ... finally: os.unlink(mf_path)`, so on each of the three exits
(exit code 0, non-zero exit code, exception in the streaming block) the
temporary file is unlinked before the result is produced.  `os.unlink` is
modelled as succeeding on the existing file.  The failure message is
`f"Create failed (code {code})"`. -/
def create_model_from_modelfile (fs : List (List Char)) (mfPath : List Char)
    (run : CreateRun) : (Bool × List Char) × List (List Char) :=
  let fs1 := mfPath :: fs
  match run with
  | .completed code =>
    if code = 0 then ((true, "Model created".data), fs1.erase mfPath)
    else ((false, "Create failed (code ".data ++ (toString code).data ++ [')']),
          fs1.erase mfPath)
  | .streamExc m => ((false, m), fs1.erase mfPath)

/-! ### Helper lemmas -/

/-- `last_percent` never decreases across one line. -/
theorem le_observeLine (lp : Nat) (line : List Char) : lp ≤ observeLine lp line := by
  unfold observeLine
  cases extractPercentToken line with
  | none => exact le_refl lp
  | some ds => exact Nat.le_max_left _ _

/-- `last_percent` stays within the clamp bound. -/
theorem observeLine_le_100 (lp : Nat) (line : List Char) (h : lp ≤ 100) :
    observeLine lp line ≤ 100 := by
  unfold observeLine
  cases extractPercentToken line with
  | none => exact h
  | some ds => exact Nat.max_le.mpr ⟨h, Nat.min_le_left _ _⟩

/-- Every percent in the tail of the event stream is at least the running
maximum it started from. -/
theorem pullEventsAux_fst_ge :
    ∀ (lns : List (List Char)) (lp : Nat), ∀ e ∈ pullEventsAux lp lns, lp ≤ e.1
  | [], _, _, he => absurd he (by simp [pullEventsAux])
  | ln :: lns, lp, e, he => by
    simp only [pullEventsAux, List.mem_cons] at he
    rcases he with h | h
    · exact h ▸ le_observeLine lp (rstripCRLF ln)
    · exact le_trans (le_observeLine lp (rstripCRLF ln))
        (pullEventsAux_fst_ge lns _ e h)

/-- The percents in the event stream are pairwise non-decreasing. -/
theorem pullEventsAux_pairwise :
    ∀ (lns : List (List Char)) (lp : Nat),
      List.Pairwise (fun a b => a ≤ b) ((pullEventsAux lp lns).map Prod.fst)
  | [], _ => by simp [pullEventsAux]
  | ln :: lns, lp => by
    simp only [pullEventsAux, List.map_cons]
    refine List.Pairwise.cons ?_ (pullEventsAux_pairwise lns _)
    intro b hb
    simp only [List.mem_map] at hb
    obtain ⟨e, he, rfl⟩ := hb
    exact pullEventsAux_fst_ge lns _ e he

/-- Percents in the event stream stay within the clamp bound. -/
theorem pullEventsAux_fst_le_100 :
    ∀ (lns : List (List Char)) (lp : Nat), lp ≤ 100 →
      ∀ e ∈ pullEventsAux lp lns, e.1 ≤ 100
  | [], _, _, _, he => absurd he (by simp [pullEventsAux])
  | ln :: lns, lp, hlp, e, he => by
    simp only [pullEventsAux, List.mem_cons] at he
    rcases he with h | h
    · exact h ▸ observeLine_le_100 lp (rstripCRLF ln) hlp
    · exact pullEventsAux_fst_le_100 lns _ (observeLine_le_100 lp _ hlp) e h

/-- Every line is forwarded to the callback, `rstrip`ped. -/
theorem pullEventsAux_snd :
    ∀ (lns : List (List Char)) (lp : Nat),
      (pullEventsAux lp lns).map Prod.snd = lns.map rstripCRLF
  | [], _ => rfl
  | ln :: lns, lp => by
    simp only [pullEventsAux, List.map_cons]
    rw [pullEventsAux_snd lns _]

/-- The head of a `dropWhile` never satisfies the dropped predicate. -/
theorem dropWhile_head?_not (p : Char → Bool) :
    ∀ (l : List Char) (c : Char), (l.dropWhile p).head? = some c → p c = false
  | [], c, h => by simp [List.dropWhile] at h
  | x :: xs, c, h => by
    by_cases hx : p x
    · rw [List.dropWhile_cons_of_pos hx] at h
      exact dropWhile_head?_not p xs c h
    · rw [List.dropWhile_cons_of_neg hx] at h
      simp only [List.head?_cons, Option.some_inj] at h
      exact h ▸ (Bool.not_eq_true (p x)).mp hx

/-- `dropWhile` keeps the last element when its result is non-empty. -/
theorem dropWhile_getLast? (p : Char → Bool) :
    ∀ (l : List Char), l.dropWhile p ≠ [] →
      (l.dropWhile p).getLast? = l.getLast?
  | [], h => by simp at h
  | x :: xs, h => by
    by_cases hx : p x
    · rw [List.dropWhile_cons_of_pos hx] at h ⊢
      rcases hxs : xs with _ | ⟨y, ys⟩
      · rw [hxs] at h; simp [List.dropWhile] at h
      · rw [← hxs]
        rw [dropWhile_getLast? p xs h, hxs, List.getLast?_cons_cons]
    · rw [List.dropWhile_cons_of_neg hx]

/-- The result of `pyStrip` has no leading or trailing whitespace. -/
theorem noEdgeSpace_pyStrip (l : List Char) : noEdgeSpace (pyStrip l) = true := by
  unfold noEdgeSpace pyStrip
  rw [List.head?_reverse, List.getLast?_reverse]
  rcases hw : (l.dropWhile isSpace).reverse.dropWhile isSpace with _ | ⟨c, w⟩
  · simp
  · have hlast : (c :: w).getLast? = (l.dropWhile isSpace).head? := by
      rw [← hw, dropWhile_getLast? isSpace _ (by rw [hw]; exact List.cons_ne_nil c w),
        List.getLast?_reverse]
    have hc : isSpace c = false :=
      dropWhile_head?_not isSpace (l.dropWhile isSpace).reverse c (by rw [hw]; rfl)
    rw [hlast]
    rcases hu : l.dropWhile isSpace with _ | ⟨d, u⟩
    · rw [hu] at hw
      simp at hw
    · have hd : isSpace d = false :=
        dropWhile_head?_not isSpace l d (by rw [hu]; rfl)
      simp [hc, hd]

/-! ### Claim theorems -/

/-- Claim C2: within one `pull_model` invocation, the sequence of percent
values delivered to the progress callback is monotonically non-decreasing —
once a percent has been reported, no later callback of the same invocation
reports a lower value. -/
theorem pull_percent_monotone (lines : List (List Char)) :
    List.Pairwise (fun a b => a ≤ b) (((pull_model lines 0).2).map Prod.fst) :=
  pullEventsAux_pairwise lines 0

/-- Claim C10: every percent value passed to the progress callback of a
`pull_model` invocation lies in `[0, 100]` (the lower bound holds because
percents are naturals; the upper bound because the running maximum starts at
0 and each parsed value is clamped by `min 100` before the update). -/
theorem pull_percent_in_range (lines : List (List Char)) :
    ∀ e ∈ (pull_model lines 0).2, e.1 ≤ 100 :=
  pullEventsAux_fst_le_100 lines 0 (by omega)

/-- Witness for `pull_percent_in_range` at the single-line stream
`"42%\n"`, whose only event reports 42. -/
theorem pull_percent_in_range_witness :
    (42, "42%".data) ∈ (pull_model ["42%\n".data] 0).2 ∧ (42 : Nat) ≤ 100 :=
  ⟨by decide, pull_percent_in_range ["42%\n".data] (42, "42%".data) (by decide)⟩

/-- Claim C5: when the structured (JSON) listing attempt fails to decode,
`list_models` does not raise past its boundary — it falls through to the
fallback text path and returns the (possibly empty) list that path
produces, and returns the empty list when the fallback subprocess itself
fails. -/
theorem json_decode_failure_falls_back (p : List Char) (out : List (List Char))
    (hp : p ≠ []) :
    list_models (some p) .jsonFail (.ok out) = parseFallbackText out ∧
    list_models (some p) .jsonFail .fail = [] := by
  constructor <;> simp [list_models, pathTruthy, hp]

/-- Witness for `json_decode_failure_falls_back` at a concrete binary path
and a concrete two-line fallback listing. -/
theorem json_decode_failure_falls_back_witness :
    ("/usr/local/bin/ollama".data : List Char) ≠ [] ∧
    (list_models (some ("/usr/local/bin/ollama".data)) .jsonFail
        (.ok ["NAME ID SIZE MODIFIED".data, "llama3:8b abc123 4.7GB 2 days ago".data])
      = parseFallbackText
          ["NAME ID SIZE MODIFIED".data, "llama3:8b abc123 4.7GB 2 days ago".data] ∧
     list_models (some ("/usr/local/bin/ollama".data)) .jsonFail .fail = []) :=
  ⟨by decide, json_decode_failure_falls_back ("/usr/local/bin/ollama".data) _ (by decide)⟩

/-- Claim C9: the transient Modelfile written by
`create_model_from_modelfile` is removed on every exit path of the
invocation — successful create, non-zero subprocess exit, and an exception
raised in the streaming block. -/
theorem create_temp_file_removed (fs : List (List Char)) (mfPath : List Char)
    (run : CreateRun) (h : mfPath ∉ fs) :
    mfPath ∉ (create_model_from_modelfile fs mfPath run).2 := by
  have he : (mfPath :: fs).erase mfPath = fs := List.erase_cons_head mfPath fs
  cases run with
  | completed code =>
    by_cases hc : code = 0 <;> simp only [create_model_from_modelfile, hc] <;>
      simp [he, h]
  | streamExc m => simpa [create_model_from_modelfile, he] using h

/-- Witness for `create_temp_file_removed`: a concrete temporary path on an
initially empty filesystem, for a successful create. -/
theorem create_temp_file_removed_witness :
    ("/tmp/tmp123.modelfile".data : List Char) ∉ ([] : List (List Char)) ∧
    "/tmp/tmp123.modelfile".data ∉
      (create_model_from_modelfile [] ("/tmp/tmp123.modelfile".data) (.completed 0)).2 :=
  ⟨by decide,
   create_temp_file_removed [] ("/tmp/tmp123.modelfile".data) (.completed 0) (by decide)⟩

/-- Any record the fallback line parser yields carries the derived family
and quantization of its own name. -/
theorem parseFallbackLine_derives (line : List Char) (r : OllamaModelInfo)
    (h : parseFallbackLine line = some r) :
    r.family = familyOf r.name ∧ r.quant = quantOf r.name := by
  unfold parseFallbackLine at h
  rcases hs : splitWS line with _ | ⟨p0, _ | ⟨p1, rest⟩⟩ <;> rw [hs] at h
  · exact absurd h (by simp)
  · exact absurd h (by simp)
  · by_cases hl : rest.length < 2
    · simp [hl] at h
    · simp only [hl, if_false, Option.some_inj] at h
      subst h
      exact ⟨rfl, rfl⟩

/-- Any record built from a structured entry carries the derived family and
quantization of its own name. -/
theorem recordOfItem_derives (it : JsonItem) :
    (recordOfItem it).family = familyOf (recordOfItem it).name ∧
    (recordOfItem it).quant = quantOf (recordOfItem it).name :=
  ⟨rfl, rfl⟩

/-- Claim C4: every record produced by `list_models`, on the structured and
on the fallback path alike, has `family` equal to the part of `name` before
the first colon (all of `name` when there is none) and `quant` equal to the
quantization token matched inside the variant part (empty when no match);
concretely, the name `"mistral:7b-q4_0"` derives family `"mistral"` and
quant `"q4_0"`. -/
theorem family_quant_derived :
    (∀ (binary : Option (List Char)) (ja : ListAttempt) (fb : FallbackAttempt)
        (r : OllamaModelInfo), r ∈ list_models binary ja fb →
          r.family = familyOf r.name ∧ r.quant = quantOf r.name) ∧
    familyOf ("mistral:7b-q4_0".data) = "mistral".data ∧
    quantOf ("mistral:7b-q4_0".data) = "q4_0".data := by
  refine ⟨?_, by decide, by decide⟩
  intro binary ja fb r hr
  unfold list_models at hr
  by_cases hb : pathTruthy binary = true
  · rw [if_pos hb] at hr
    cases ja with
    | jsonOk items =>
      obtain ⟨it, _, rfl⟩ := List.mem_map.mp hr
      exact recordOfItem_derives it
    | jsonEmpty | jsonFail =>
      cases fb with
      | ok out =>
        simp only [parseFallbackText] at hr
        rcases hfil : out.filter (fun ln => !isBlank ln) with _ | ⟨hd, rest⟩ <;>
          rw [hfil] at hr
        · exact absurd hr (by simp)
        · cases rest with
          | nil => exact absurd hr (by simp)
          | cons l2 rest2 =>
            obtain ⟨line, _, hline⟩ := List.mem_filterMap.mp hr
            exact parseFallbackLine_derives line r hline
      | fail => exact absurd hr (by simp)
  · rw [if_neg hb] at hr
    exact absurd hr (by simp)

/-- Witness for `family_quant_derived` at a structured listing with the
single entry named `"mistral:7b-q4_0"`. -/
theorem family_quant_derived_witness :
    (recordOfItem ⟨"mistral:7b-q4_0".data, "3.8GB".data, "1 day ago".data,
        "def456".data, []⟩).family
      = familyOf (recordOfItem ⟨"mistral:7b-q4_0".data, "3.8GB".data,
          "1 day ago".data, "def456".data, []⟩).name ∧
    (recordOfItem ⟨"mistral:7b-q4_0".data, "3.8GB".data, "1 day ago".data,
        "def456".data, []⟩).quant
      = quantOf (recordOfItem ⟨"mistral:7b-q4_0".data, "3.8GB".data,
          "1 day ago".data, "def456".data, []⟩).name :=
  family_quant_derived.1 (some ("/usr/local/bin/ollama".data))
    (.jsonOk [⟨"mistral:7b-q4_0".data, "3.8GB".data, "1 day ago".data,
        "def456".data, []⟩]) .fail _ (by decide)

/-- Counterexample to claim C1: on the six-token data line
`"alpha beta 4.7GB 2 days ago"` the claim predicts the name
`"alpha beta 4.7GB"` (all leading tokens up to the last three), but the
parser takes only the first token `"alpha"` as the name and joins everything
from the third token on into `modified`. -/
theorem fallback_name_counterexample :
    (parseFallbackLine ("alpha beta 4.7GB 2 days ago".data)).map OllamaModelInfo.name
      = some ("alpha".data) ∧
    (parseFallbackLine ("alpha beta 4.7GB 2 days ago".data)).map OllamaModelInfo.modified
      = some ("4.7GB 2 days ago".data) ∧
    some ("alpha".data) ≠ some ("alpha beta 4.7GB".data) ∧
    some ("4.7GB 2 days ago".data) ≠ some ("days ago".data) := by
  refine ⟨by decide, by decide, by decide, by decide⟩

/-- Claim C1 (amended): for every data line with at least four
whitespace-separated tokens, the fallback parser takes the FIRST token as
the name, the SECOND token as the size, and the space-join of ALL remaining
tokens (two or more) as the modification timestamp; every line with fewer
than four tokens is skipped, and skipping it leaves the parse of the
remaining lines unchanged. -/
theorem fallback_line_amended :
    (∀ (line p0 p1 : List Char) (ps : List (List Char)),
        splitWS line = p0 :: p1 :: ps → 2 ≤ ps.length →
          parseFallbackLine line =
            some { name := p0, size := p1, modified := joinSpace ps,
                   id := [], family := familyOf p0, quant := quantOf p0 }) ∧
    (∀ line : List Char, (splitWS line).length < 4 → parseFallbackLine line = none) ∧
    (∀ (pre post : List (List Char)) (bad : List Char),
        parseFallbackLine bad = none →
          (pre ++ bad :: post).filterMap parseFallbackLine
            = (pre ++ post).filterMap parseFallbackLine) := by
  refine ⟨?_, ?_, ?_⟩
  · intro line p0 p1 ps hs hlen
    simp [parseFallbackLine, hs, Nat.not_lt.mpr hlen]
  · intro line hlen
    rcases hs : splitWS line with _ | ⟨p0, _ | ⟨p1, rest⟩⟩
    · simp [parseFallbackLine, hs]
    · simp [parseFallbackLine, hs]
    · rw [hs] at hlen
      simp only [List.length_cons] at hlen
      simp [parseFallbackLine, hs, show rest.length < 2 by omega]
  · intro pre post bad hbad
    simp [List.filterMap_append, List.filterMap_cons, hbad]

/-- Witness for `fallback_line_amended` at the spec's example data line. -/
theorem fallback_line_amended_witness :
    parseFallbackLine ("llama3:8b abc123 4.7GB 2 days ago".data) =
      some { name := "llama3:8b".data, size := "abc123".data,
             modified := joinSpace ["4.7GB".data, "2".data, "days".data, "ago".data],
             id := [], family := familyOf ("llama3:8b".data),
             quant := quantOf ("llama3:8b".data) } :=
  fallback_line_amended.1 ("llama3:8b abc123 4.7GB 2 days ago".data)
    ("llama3:8b".data) ("abc123".data)
    ["4.7GB".data, "2".data, "days".data, "ago".data] (by decide) (by decide)

/-- Counterexample to claim C3: the line `"150%"` carries no trailing
numeric token whose value lies in `[0,100]`, so by the claim a running
maximum of 40 should stay 40; the extractor instead clamps 150 to 100 and
raises the running maximum to 100. -/
theorem percent_clamp_counterexample :
    observeLine 40 ("150%".data) = 100 ∧ (100 : Nat) ≠ 40 := by
  refine ⟨by decide, by decide⟩

/-- Claim C3 (amended): when the line (after trailing whitespace) ends in a
percent sign immediately preceded by a digit, the matched token is the last
one-to-three digits of that run, and the new running maximum is
`max(runningMax, min(100, parsedValue))` — values above 100 are clamped, not
ignored; when there is no match the running maximum is unchanged; in both
cases the (rstripped) line is forwarded to the progress callback together
with the current running maximum. -/
theorem percent_extraction_amended :
    (∀ (lp : Nat) (line ds : List Char), extractPercentToken line = some ds →
        observeLine lp line = max lp (min 100 (digitsToNat ds))) ∧
    (∀ (lp : Nat) (line : List Char), extractPercentToken line = none →
        observeLine lp line = lp) ∧
    (∀ (line ds : List Char), extractPercentToken line = some ds →
        ds ≠ [] ∧ ds.length ≤ 3) ∧
    (∀ (lp : Nat) (lns : List (List Char)),
        (pullEventsAux lp lns).map Prod.snd = lns.map rstripCRLF) := by
  refine ⟨?_, ?_, ?_, fun lp lns => pullEventsAux_snd lns lp⟩
  · intro lp line ds h
    unfold observeLine
    rw [h]
  · intro lp line h
    unfold observeLine
    rw [h]
  · intro line ds h
    unfold extractPercentToken at h
    rcases hs : line.reverse.dropWhile isSpace with _ | ⟨c, rest⟩ <;> rw [hs] at h
    · exact absurd h (by simp)
    · by_cases hc : c = '%'
      · by_cases hd : (rest.takeWhile Char.isDigit).take 3 = []
        · simp [hc, hd] at h
        · simp only [hc, if_true, if_neg hd, Option.some_inj] at h
          subst h
          refine ⟨by simpa using hd, ?_⟩
          rw [List.length_reverse]
          exact List.length_take_le 3 _
      · simp [hc] at h

/-- Witness for `percent_extraction_amended`: the line
`"pulling manifest... 57%"` matches with token `"57"`, so a running maximum
of 40 becomes `max 40 (min 100 57) = 57`. -/
theorem percent_extraction_amended_witness :
    extractPercentToken ("pulling manifest... 57%".data) = some ("57".data) ∧
    observeLine 40 ("pulling manifest... 57%".data)
      = max 40 (min 100 (digitsToNat ("57".data))) :=
  ⟨by decide, percent_extraction_amended.1 40 ("pulling manifest... 57%".data)
    ("57".data) (by decide)⟩

/-- Counterexample to claim C6: when `show` exits 0 with stdout
`"FROM llama3\n"`, `show_modelfile` exposes that raw stream as its message,
and it differs from its stripped form — the message does have trailing
whitespace. -/
theorem message_trim_counterexample :
    (show_modelfile (.ok 0 ("FROM llama3\n".data) [])).2 = some ("FROM llama3\n".data) ∧
    pyStrip ("FROM llama3\n".data) ≠ "FROM llama3\n".data := by
  refine ⟨by decide, by decide⟩

/-- Claim C6 (amended): `remove_model` and `stop_model` strip their
stream-derived messages (on the path where the process ran), and
`pull_model`'s and `create_model_from_modelfile`'s messages are fixed
literals; but `show_modelfile`, `run_model_once` and `prune` expose the
raw captured stream without stripping. -/
theorem message_trim_amended :
    (∀ (code : Int) (out err : List Char),
        noEdgeSpace (remove_model (.ok code out err)).2 = true) ∧
    (∀ (code : Int) (out err : List Char),
        noEdgeSpace (stop_model (.ok code out err)).2 = true) ∧
    (∀ (lines : List (List Char)) (code : Int),
        (pull_model lines code).1.2 =
          (if code = 0 then "Pull complete".data
           else "Pull failed (code ".data ++ (toString code).data ++ [')'])) ∧
    (∀ (fs : List (List Char)) (mfPath : List Char) (code : Int),
        (create_model_from_modelfile fs mfPath (.completed code)).1.2 =
          (if code = 0 then "Model created".data
           else "Create failed (code ".data ++ (toString code).data ++ [')'])) ∧
    (∀ (code : Int) (out err : List Char),
        (show_modelfile (.ok code out err)).2 = some (if code = 0 then out else err)) ∧
    (∀ (lines : List (List Char)) (code : Int),
        (run_model_once lines code).1.2 = joinAll lines) ∧
    (∀ (lines : List (List Char)) (code : Int),
        (prune lines code).2 = joinAll lines) := by
  refine ⟨?_, ?_, ?_, ?_, ?_, fun _ _ => rfl, fun _ _ => rfl⟩
  · intro code out err
    unfold remove_model
    by_cases hc : code = 0 <;> simp only [hc, if_true, if_pos, if_neg] <;>
      exact noEdgeSpace_pyStrip _
  · intro code out err
    unfold stop_model
    by_cases hc : code = 0 <;> simp only [hc, if_true, if_pos, if_neg] <;>
      exact noEdgeSpace_pyStrip _
  · intro lines code
    unfold pull_model
    by_cases hc : code = 0 <;> simp [hc]
  · intro fs mfPath code
    unfold create_model_from_modelfile
    by_cases hc : code = 0 <;> simp [hc]
  · intro code out err
    unfold show_modelfile
    by_cases hc : code = 0 <;> simp [hc]

/-- Counterexample to claim C7: invoking `show_modelfile` with the binary
path unresolved does NOT short-circuit — the `subprocess.run` call is still
reached (there is no binary-path guard in the method), and the outcome's
message is the caught invocation error, not a not-found report. -/
theorem show_short_circuit_counterexample :
    (show_modelfile_full none (.ok 0 [] [])).attemptedSpawn = true ∧
    (show_modelfile_full none (.ok 0 [] [])).outcome = (false, some noneArgvErrorMsg) := by
  refine ⟨by decide, by decide⟩

/-- Claim C7 (amended): `show_modelfile` has no binary-path guard; with the
binary unresolved it still attempts the subprocess invocation, whose
failure is caught by the handler and returned as a failed outcome carrying
the exception text — so it never surfaces as an unhandled fault, but it
does not short-circuit before the spawn attempt. -/
theorem show_unresolved_amended (r : RunResult) :
    (show_modelfile_full none r).attemptedSpawn = true ∧
    (show_modelfile_full none r).outcome = (false, some noneArgvErrorMsg) :=
  ⟨rfl, rfl⟩

/-- Counterexample to claim C8: at the concrete stream `["Hello world\n"]`
with exit code 0, `run_model_once` delivers the line through the callback
and then returns that same line again as the outcome's message — the
streamed output IS re-delivered in the message. -/
theorem run_redelivery_counterexample :
    (run_model_once [("Hello world\n".data)] 0).2 = [("Hello world\n".data)] ∧
    (run_model_once [("Hello world\n".data)] 0).1.2 = "Hello world\n".data ∧
    ("Hello world\n".data : List Char) ≠ [] := by
  refine ⟨by decide, by decide, by decide⟩

/-- Claim C8 (amended): for both streaming invocations the outcome is a
function of the exit code obtained after the process exits; `pull_model`'s
outcome message is a fixed summary independent of the streamed lines, but
`run_model_once`'s message is the concatenation of exactly the lines that
were already delivered one at a time through its callback. -/
theorem stream_outcome_amended :
    (∀ (lines : List (List Char)) (code : Int),
        (pull_model lines code).1 =
          (if code = 0 then (true, "Pull complete".data)
           else (false, "Pull failed (code ".data ++ (toString code).data ++ [')']))) ∧
    (∀ (lines lines2 : List (List Char)) (code : Int),
        (pull_model lines code).1 = (pull_model lines2 code).1) ∧
    (∀ (lines : List (List Char)) (code : Int),
        (run_model_once lines code).1 = ((code == 0), joinAll lines) ∧
        (run_model_once lines code).2 = lines) := by
  refine ⟨fun _ _ => rfl, fun _ _ _ => rfl, fun _ _ => ⟨rfl, rfl⟩⟩

end OllamaAdmin
